import Mathlib

/-!
Shallow embedding of the core of the libsane adapter (frame decoder,
scan state machine, fixed-point conversion), translated from the Rust
sources, together with theorems settling the specification claims.

Machine integers are modelled as Nat with explicit wrap-around (% 2^32)
where the Rust code performs u32 arithmetic.  Fallible Rust operations
return explicit result values; a Rust panic (slice index out of range,
remainder by zero, assertion failure) is modelled by a dedicated
`panicked` result constructor.  Byte buffers are lists of Nat (byte
values below 256); the partially initialised spare capacity of the
decoder buffer is a list of `Option Nat` where `none` marks an
uninitialised byte.
-/

namespace LibSane

/-- SANE status codes (sys::Status of libsane-sys together with the
Status enum of error.rs; Good marks success, everything else is carried
inside Error values). -/
inductive SysStatus where
  | Good
  | Unsupported
  | Cancelled
  | DeviceBusy
  | Inval
  | Eof
  | Jammed
  | NoDocs
  | CoverOpen
  | IoError
  | NoMem
  | AccessDenied
  | Unknown
deriving DecidableEq, Repr

/-- Frame formats (sys::Frame as matched by the decoder: the five known
constants plus a stand-in for every other word value, which the decoder
match treats through its catch-all arm). -/
inductive Frame where
  | gray
  | rgb
  | red
  | green
  | blue
  | unknownFormat
deriving DecidableEq, Repr

/-- FrameParameters of scan.rs (format, last_frame, bytes_per_line,
pixels_per_line, lines, depth); the u32 fields are Nat values below 2^32. -/
structure FrameParameters where
  format : Frame
  last_frame : Bool
  bytes_per_line : Nat
  pixels_per_line : Nat
  lines : Option Nat
  depth : Nat
deriving DecidableEq, Repr

/-- DecodedImageFormat of frame_decoder.rs. -/
inductive DecodedImageFormat where
  | BlackAndWhite
  | Gray (bytes_per_pixel : Nat)
  | Rgb (bytes_per_channel : Nat)
deriving DecidableEq, Repr

/-- FrameDecoderState of frame_decoder.rs. -/
inductive FrameDecoderState where
  | Initial
  | Done (format : DecodedImageFormat)
  | RgbParts (bytes_per_channel : Nat) (has_red has_green has_blue : Bool)
deriving DecidableEq, Repr

/-- FrameDecoderState::is_done. -/
def FrameDecoderState.isDone : FrameDecoderState → Bool
  | .Done _ => true
  | _ => false

/-- FrameDecodeError of frame_decoder.rs. -/
inductive FrameDecodeError where
  | AlreadyDone
  | DuplicateChannel
  | UnexpectedParameters
  | UnsupportedParameters
  | InvalidParameters
deriving DecidableEq, Repr

/-- FrameDecoder of frame_decoder.rs.  The `spare` field models the
first `dst_len` bytes of the spare capacity of the Vec buffer, the
region the banded RGB path writes into before committing it with
set_len (none marks a byte that has not been written yet); it is not
observable through the public interface. -/
structure FrameDecoder where
  buffer : List Nat
  spare : List (Option Nat)
  state : FrameDecoderState
  width : Nat
  height : Nat
  black_and_white_as_bytes : Bool
deriving DecidableEq, Repr

/-- FrameDecoder::new (and Builder::new().build()). -/
def FrameDecoder.new : FrameDecoder :=
  { buffer := [], spare := [], state := .Initial, width := 0, height := 0,
    black_and_white_as_bytes := false }

/-- Result of FrameDecoder::write on a decoder value: the Rust method
mutates self and returns Result<(), FrameDecodeError>; both the ok and
the err constructor carry the decoder as left by the call, and
`panicked` marks executions that panic (slice index out of range or
remainder by zero). -/
inductive WriteResult where
  | ok (d : FrameDecoder)
  | err (e : FrameDecodeError) (d : FrameDecoder)
  | panicked
deriving DecidableEq, Repr

/-- Row prefixes consumed by the decoder: `frame.chunks_exact(bpl)`
followed by `line[..keep]` on each of the `h` rows, flattened.  The
decoder only reaches this with `frame.length = bpl * h` and
`keep ≤ bpl` (other executions panic first), where it agrees with the
iterator chain of the source. -/
def takeRows (frame : List Nat) (bpl keep : Nat) : Nat → List Nat
  | 0 => []
  | h + 1 => frame.take keep ++ takeRows (frame.drop bpl) bpl keep h

/-- Bitwise complement of a byte (the Rust `!src` on u8). -/
def u8not (b : Nat) : Nat := 255 - b % 256

/-- Expansion of one packed black-and-white byte into eight bytes, most
significant bit first: the inner loop `dst[8*i+j] = if byte & (0x80>>j) != 0
then 0 else 1` of the expanded branch. -/
def expandByte (b : Nat) : List Nat :=
  (List.range 8).map (fun j => if b &&& (128 >>> j) ≠ 0 then 0 else 1)

/-- Exact splitting of a list into `count` chunks of `size` elements:
`chunks_exact(size)` on a list of length `size * count`. -/
def chunkList (size : Nat) (l : List Nat) : Nat → List (List Nat)
  | 0 => []
  | count + 1 => l.take size :: chunkList size (l.drop size) count

/-- Channel index used for the scatter offset: Red 0, Green 1, Blue 2
(the match inside both banded arms of FrameDecoder::write). -/
def channelIdx : Frame → Nat
  | .red => 0
  | .green => 1
  | .blue => 2
  | _ => 0

/-- FrameDecoder::write_channel: scatters the `width * h` channel
samples of a banded frame into the destination window, one
`bpc`-byte slice at `offset` inside each `3 * bpc`-byte pixel chunk.
Positions outside a complete pixel chunk, beyond the available
channels, or outside the offset window keep their old value, exactly
as chunks_exact_mut and zip leave them untouched. -/
def writeChannel (dst : List (Option Nat)) (frame : List Nat)
    (bpl width bpc h offset : Nat) : List (Option Nat) :=
  let channels := chunkList bpc (takeRows frame bpl (width * bpc) h) (width * h)
  dst.mapIdx fun q old =>
    let p := q / (3 * bpc)
    let r := q % (3 * bpc)
    if hp : p < channels.length ∧ p < dst.length / (3 * bpc) ∧
        offset ≤ r ∧ r < offset + bpc then
      some ((channels.get ⟨p, hp.1⟩).getD (r - offset) 0)
    else old

/-- First banded arm of FrameDecoder::write (state Initial, format Red,
Green or Blue).  The offset is `bytes_per_pixel * index` exactly as in
the source; together with the `pixel[offset..offset + bytes_per_channel]`
slice taken out of a `3 * bytes_per_channel`-byte pixel this panics for
every Green or Blue band with at least one pixel.  The line slice
`line[..width * bpc]` panics when the consumed prefix exceeds
bytes_per_line. -/
def writeBandFirst (d : FrameDecoder) (frame : List Nat) (p : FrameParameters)
    (fWidth fHeight : Nat) : WriteResult :=
  if p.depth % 8 ≠ 0 then .err .UnsupportedParameters d
  else
    let bpc := p.depth / 8
    let bpp := bpc * 3
    let offset := bpp * channelIdx p.format
    let dstLen := fWidth * fHeight * bpp
    if fWidth * fHeight ≠ 0 ∧ (3 * bpc < offset + bpc ∨ p.bytes_per_line < fWidth * bpc) then
      .panicked
    else
      .ok { d with
        spare := writeChannel (List.replicate dstLen none) frame
          p.bytes_per_line fWidth bpc fHeight offset,
        width := fWidth,
        height := fHeight,
        state := .RgbParts bpc (p.format = .red) (p.format = .green) (p.format = .blue) }

/-- Second banded arm of FrameDecoder::write (state RgbParts, format
Red, Green or Blue): duplicate, dimension and depth checks, then the
same write_channel scatter (with the same out-of-range offset for
Green and Blue), then either a flag update or the final commit
(set_len) that appends the accumulated pixel area to the buffer. -/
def writeBandNext (d : FrameDecoder) (frame : List Nat) (p : FrameParameters)
    (fWidth fHeight bpc : Nat) (hasR hasG hasB : Bool) : WriteResult :=
  let hasChan := match p.format with
    | .red => hasR
    | .green => hasG
    | .blue => hasB
    | _ => false
  if hasChan then .err .DuplicateChannel d
  else if fWidth ≠ d.width ∨ fHeight ≠ d.height then .err .UnexpectedParameters d
  else if p.depth % 8 ≠ 0 ∨ p.depth / 8 ≠ bpc then .err .UnexpectedParameters d
  else
    let bpp := bpc * 3
    let offset := bpp * channelIdx p.format
    let dstLen := fWidth * fHeight * bpp
    let window := d.spare.take dstLen ++ List.replicate (dstLen - d.spare.length) none
    if fWidth * fHeight ≠ 0 ∧ (3 * bpc < offset + bpc ∨ p.bytes_per_line < fWidth * bpc) then
      .panicked
    else
      let spare2 := writeChannel window frame p.bytes_per_line fWidth bpc fHeight offset
      let othersPresent := match p.format with
        | .red => hasG && hasB
        | .green => hasR && hasB
        | .blue => hasR && hasG
        | _ => false
      if othersPresent then
        .ok { d with
          buffer := d.buffer ++ spare2.map (fun o => o.getD 0),
          spare := [],
          state := .Done (.Rgb bpc) }
      else
        .ok { d with
          spare := spare2,
          state := .RgbParts bpc (hasR || p.format = .red) (hasG || p.format = .green)
            (hasB || p.format = .blue) }

/-- Black-and-white arm of FrameDecoder::write (state Initial, format
Gray, depth 1): whole-byte-line check, then either the expanded or the
packed copy.  Both closures slice `line[..pixels_per_line / 8]` out of
each `bytes_per_line`-byte row, which panics when the prefix exceeds
the row and at least one row is consumed. -/
def writeBaw (d : FrameDecoder) (frame : List Nat) (p : FrameParameters)
    (fWidth fHeight : Nat) : WriteResult :=
  if p.pixels_per_line % 8 ≠ 0 then .err .UnsupportedParameters d
  else if fHeight ≠ 0 ∧ p.bytes_per_line < p.pixels_per_line / 8 then .panicked
  else
    let consumed := takeRows frame p.bytes_per_line (p.pixels_per_line / 8) fHeight
    if d.black_and_white_as_bytes then
      .ok { d with
        buffer := d.buffer ++ consumed.flatMap expandByte,
        width := fWidth, height := fHeight,
        state := .Done .BlackAndWhite }
    else
      .ok { d with
        buffer := d.buffer ++ consumed.map u8not,
        width := fWidth, height := fHeight,
        state := .Done .BlackAndWhite }

/-- Grayscale arm of FrameDecoder::write (state Initial, format Gray,
depth above 1): whole-byte-channel check, then a copy of the row
prefixes of `pixels_per_line * bytes_per_pixel` bytes. -/
def writeGray (d : FrameDecoder) (frame : List Nat) (p : FrameParameters)
    (fWidth fHeight : Nat) : WriteResult :=
  if p.depth % 8 ≠ 0 then .err .UnsupportedParameters d
  else
    let bpp := p.depth / 8
    let dstLen := fWidth * fHeight * bpp
    if dstLen ≠ 0 ∧ p.bytes_per_line < p.pixels_per_line * bpp then .panicked
    else
      .ok { d with
        buffer := d.buffer ++ takeRows frame p.bytes_per_line (p.pixels_per_line * bpp) fHeight,
        width := fWidth, height := fHeight,
        state := .Done (.Gray bpp) }

/-- Interleaved RGB arm of FrameDecoder::write (state Initial, format
Rgb): like the grayscale arm with three channels per pixel. -/
def writeRgb (d : FrameDecoder) (frame : List Nat) (p : FrameParameters)
    (fWidth fHeight : Nat) : WriteResult :=
  if p.depth % 8 ≠ 0 then .err .UnsupportedParameters d
  else
    let bpc := p.depth / 8
    let bpp := bpc * 3
    let dstLen := fWidth * fHeight * bpp
    if dstLen ≠ 0 ∧ p.bytes_per_line < p.pixels_per_line * bpp then .panicked
    else
      .ok { d with
        buffer := d.buffer ++ takeRows frame p.bytes_per_line (p.pixels_per_line * bpp) fHeight,
        width := fWidth, height := fHeight,
        state := .Done (.Rgb bpc) }

/-- Dispatch of FrameDecoder::write on state and format (the match at
the end of the method; the Done states were already rejected by the
AlreadyDone check). -/
def writeDispatch (d : FrameDecoder) (frame : List Nat) (p : FrameParameters)
    (fWidth fHeight : Nat) : WriteResult :=
  match d.state, p.format with
  | .Initial, .gray =>
    if p.depth = 1 then writeBaw d frame p fWidth fHeight
    else writeGray d frame p fWidth fHeight
  | .Initial, .rgb => writeRgb d frame p fWidth fHeight
  | .Initial, .red => writeBandFirst d frame p fWidth fHeight
  | .Initial, .green => writeBandFirst d frame p fWidth fHeight
  | .Initial, .blue => writeBandFirst d frame p fWidth fHeight
  | .RgbParts bpc hasR hasG hasB, .red => writeBandNext d frame p fWidth fHeight bpc hasR hasG hasB
  | .RgbParts bpc hasR hasG hasB, .green => writeBandNext d frame p fWidth fHeight bpc hasR hasG hasB
  | .RgbParts bpc hasR hasG hasB, .blue => writeBandNext d frame p fWidth fHeight bpc hasR hasG hasB
  | _, _ => .err .UnsupportedParameters d

/-- FrameDecoder::write.  The validation prefix mirrors the source
order: AlreadyDone, depth = 0, u32 conversion of the frame length,
remainder by bytes_per_line (a remainder by zero panics), line-count
mismatch; then the dispatch on state and format. -/
def write (d : FrameDecoder) (frame : List Nat) (p : FrameParameters) : WriteResult :=
  if d.state.isDone then .err .AlreadyDone d
  else if p.depth = 0 then .err .InvalidParameters d
  else if 2 ^ 32 ≤ frame.length then .err .InvalidParameters d
  else if p.bytes_per_line = 0 then .panicked
  else if frame.length % p.bytes_per_line ≠ 0 then .err .InvalidParameters d
  else
    let fHeight := frame.length / p.bytes_per_line
    if (match p.lines with | some l => l != fHeight | none => false : Bool) then
      .err .InvalidParameters d
    else
      writeDispatch d frame p p.pixels_per_line fHeight

lemma writeBandFirst_err (d : FrameDecoder) (frame : List Nat) (p : FrameParameters)
    (w h : Nat) (e : FrameDecodeError) (d' : FrameDecoder)
    (hw : writeBandFirst d frame p w h = .err e d') : d' = d := by
  unfold writeBandFirst at hw
  repeat' first
    | split at hw
    | (injection hw with h1 h2; exact h2.symm)
    | (cases hw)
    | (simp only [ne_eq] at hw)

lemma writeBandNext_err (d : FrameDecoder) (frame : List Nat) (p : FrameParameters)
    (w h bpc : Nat) (hr hg hb : Bool) (e : FrameDecodeError) (d' : FrameDecoder)
    (hw : writeBandNext d frame p w h bpc hr hg hb = .err e d') : d' = d := by
  unfold writeBandNext at hw
  repeat' first
    | split at hw
    | (injection hw with h1 h2; exact h2.symm)
    | (cases hw)
    | (simp only [ne_eq] at hw)

lemma writeBaw_err (d : FrameDecoder) (frame : List Nat) (p : FrameParameters)
    (w h : Nat) (e : FrameDecodeError) (d' : FrameDecoder)
    (hw : writeBaw d frame p w h = .err e d') : d' = d := by
  unfold writeBaw at hw
  repeat' first
    | split at hw
    | (injection hw with h1 h2; exact h2.symm)
    | (cases hw)
    | (simp only [ne_eq] at hw)

lemma writeGray_err (d : FrameDecoder) (frame : List Nat) (p : FrameParameters)
    (w h : Nat) (e : FrameDecodeError) (d' : FrameDecoder)
    (hw : writeGray d frame p w h = .err e d') : d' = d := by
  unfold writeGray at hw
  repeat' first
    | split at hw
    | (injection hw with h1 h2; exact h2.symm)
    | (cases hw)
    | (simp only [ne_eq] at hw)

lemma writeRgb_err (d : FrameDecoder) (frame : List Nat) (p : FrameParameters)
    (w h : Nat) (e : FrameDecodeError) (d' : FrameDecoder)
    (hw : writeRgb d frame p w h = .err e d') : d' = d := by
  unfold writeRgb at hw
  repeat' first
    | split at hw
    | (injection hw with h1 h2; exact h2.symm)
    | (cases hw)
    | (simp only [ne_eq] at hw)

lemma writeDispatch_err (d : FrameDecoder) (frame : List Nat) (p : FrameParameters)
    (w h : Nat) (e : FrameDecodeError) (d' : FrameDecoder)
    (hw : writeDispatch d frame p w h = .err e d') : d' = d := by
  unfold writeDispatch at hw
  split at hw
  · split at hw
    · exact writeBaw_err _ _ _ _ _ _ _ hw
    · exact writeGray_err _ _ _ _ _ _ _ hw
  · exact writeRgb_err _ _ _ _ _ _ _ hw
  · exact writeBandFirst_err _ _ _ _ _ _ _ hw
  · exact writeBandFirst_err _ _ _ _ _ _ _ hw
  · exact writeBandFirst_err _ _ _ _ _ _ _ hw
  · exact writeBandNext_err _ _ _ _ _ _ _ _ _ _ _ hw
  · exact writeBandNext_err _ _ _ _ _ _ _ _ _ _ _ hw
  · exact writeBandNext_err _ _ _ _ _ _ _ _ _ _ _ hw
  · injection hw with h1 h2; exact h2.symm

lemma write_err_eq (d : FrameDecoder) (frame : List Nat) (p : FrameParameters)
    (e : FrameDecodeError) (d' : FrameDecoder)
    (hw : write d frame p = .err e d') : d' = d := by
  unfold write at hw
  repeat' first
    | (exact writeDispatch_err _ _ _ _ _ _ _ hw)
    | split at hw
    | (injection hw with h1 h2; exact h2.symm)
    | (cases hw)
    | (simp only [ne_eq] at hw)

/-- C1: the specification claims that feeding three banded frames (Red,
Green, Blue in any order) produces the same image as one interleaved
RGB frame, with each band scattered at byte offset
`channel_index * bytes_per_channel` inside each pixel, scenario S5
(Green, Blue, Red order, one 8-bit pixel) being an instance.  The code
instead computes the scatter offset as
`channel_index * bytes_per_pixel`, so the slice
`pixel[offset..offset + bytes_per_channel]` of a
`3 * bytes_per_channel`-byte pixel is out of range for every Green or
Blue band with at least one pixel: the very first write of scenario S5
(the Green frame `[20]` with pixels_per_line = 1, bytes_per_line = 1,
lines = Some 1, depth = 8) panics instead of decoding. -/
theorem c1_s5_green_band_panics :
    write FrameDecoder.new [20]
      { format := .green, last_frame := false, bytes_per_line := 1,
        pixels_per_line := 1, lines := some 1, depth := 8 } = .panicked := by decide

/-- C2: the claim states that FrameDecoder::write never panics and is
total for every input, including bytes_per_line = 0 and bytes_per_line
smaller than the consumed row prefix, and any band order.  The code
panics in all three of these situations: a Blue band frame with one
pixel (out-of-range pixel slice from the banded offset computation),
bytes_per_line = 0 (remainder by zero in `frame_len % bytes_per_line`),
and a Gray frame whose row prefix `pixels_per_line * bytes_per_pixel`
exceeds bytes_per_line (out-of-range line slice). -/
theorem c2_write_panics :
    write FrameDecoder.new [30]
      { format := .blue, last_frame := false, bytes_per_line := 1,
        pixels_per_line := 1, lines := some 1, depth := 8 } = .panicked ∧
    write FrameDecoder.new []
      { format := .gray, last_frame := false, bytes_per_line := 0,
        pixels_per_line := 0, lines := none, depth := 8 } = .panicked ∧
    write FrameDecoder.new [1]
      { format := .gray, last_frame := false, bytes_per_line := 1,
        pixels_per_line := 16, lines := some 1, depth := 8 } = .panicked := by decide

/-- C7: once the decoder is in the Done state, every write call fails
with AlreadyDone and returns with the decoder value unchanged (same
buffer, same Done state), for every input frame and parameters. -/
theorem c7_already_done_rejects (d : FrameDecoder) (frame : List Nat)
    (p : FrameParameters) (fmt : DecodedImageFormat) (h : d.state = .Done fmt) :
    write d frame p = .err .AlreadyDone d := by
  unfold write
  have hd : d.state.isDone = true := by rw [h]; rfl
  simp [hd]

/-- Decoder value left in the Done state by a completed grayscale
write, used to instantiate the AlreadyDone theorem. -/
def doneDecoder : FrameDecoder :=
  { buffer := [7], spare := [], state := .Done (.Gray 1), width := 1, height := 1,
    black_and_white_as_bytes := false }

/-- Witness for C7 at a concrete Done decoder and a concrete frame. -/
theorem c7_already_done_rejects_witness :
    write doneDecoder [1, 2]
      { format := .gray, last_frame := true, bytes_per_line := 1,
        pixels_per_line := 1, lines := some 2, depth := 8 }
      = .err .AlreadyDone doneDecoder :=
  c7_already_done_rejects doneDecoder [1, 2] _ (.Gray 1) rfl

/-- C10: FrameDecoder::write is atomic on every error: whenever it
returns any FrameDecodeError, the decoder it leaves behind has the same
buffer, the same state (discriminant and band flags), and the same
recorded width and height as before the call. -/
theorem c10_write_error_atomic (d : FrameDecoder) (frame : List Nat)
    (p : FrameParameters) (e : FrameDecodeError) (d' : FrameDecoder)
    (hw : write d frame p = .err e d') :
    d'.buffer = d.buffer ∧ d'.state = d.state ∧ d'.width = d.width ∧ d'.height = d.height := by
  have h := write_err_eq d frame p e d' hw
  subst h
  exact ⟨rfl, rfl, rfl, rfl⟩

/-- Witness for C10 at a concrete erroneous write (depth = 0 yields
InvalidParameters on a fresh decoder). -/
theorem c10_write_error_atomic_witness :
    FrameDecoder.new.buffer = FrameDecoder.new.buffer ∧
    FrameDecoder.new.state = FrameDecoder.new.state ∧
    FrameDecoder.new.width = FrameDecoder.new.width ∧
    FrameDecoder.new.height = FrameDecoder.new.height :=
  c10_write_error_atomic FrameDecoder.new []
    { format := .gray, last_frame := false, bytes_per_line := 1,
      pixels_per_line := 1, lines := none, depth := 0 }
    .InvalidParameters FrameDecoder.new (by decide)

/-- Result and flag updates of FrameReader::read_frame (scan.rs): the
underlying sys_read result is passed through unchanged; `started` is
set unconditionally inside the closure; `done` of the parent ScanReader
is set exactly when the result is an error whose status matches the
Rust pattern `Cancelled | Eof if last_frame` (one match arm whose guard
applies to both alternatives). -/
structure ReadFrameOut where
  res : Except SysStatus Nat
  done : Bool
  started : Bool
deriving Repr

/-- FrameReader::read_frame as a function of the prior done flag, the
last_frame parameter and the backend read result. -/
def readFrame (done lastFrame : Bool) (res : Except SysStatus Nat) : ReadFrameOut :=
  { res := res
    started := true
    done :=
      match res with
      | .error e => if (e = .Cancelled ∨ e = .Eof) ∧ lastFrame = true then true else done
      | .ok _ => done }

/-- Backend results consumed by ScanReader::next_frame: the outcomes of
the sys_start, sys_set_io_mode(Blocking) and sys_get_parameters calls
(each Error value carries a non-Good status). -/
structure NextFrameBackend where
  start : Except SysStatus Unit
  setIoMode : Except SysStatus Unit
  getParameters : Except SysStatus FrameParameters
deriving Repr

/-- ScanReader::next_frame: returns Ok(None) when done; otherwise runs
start, then set_io_mode(Blocking) whose error is swallowed exactly when
its status is Unsupported, then get_parameters; the first component is
the returned value (some parameters mean a fresh FrameReader), the
second the done flag after the call (next_frame never modifies it). -/
def nextFrame (done : Bool) (b : NextFrameBackend) :
    Except SysStatus (Option FrameParameters) × Bool :=
  if done then (.ok none, done)
  else
    let inner : Except SysStatus FrameParameters :=
      match b.start with
      | .error e => .error e
      | .ok _ =>
        match b.setIoMode with
        | .error e => if e ≠ .Unsupported then .error e else b.getParameters
        | .ok _ => b.getParameters
    match inner with
    | .error e => (.error e, done)
    | .ok p => (.ok (some p), done)

/-- One underlying sys_read outcome scripted for a mock backend: either
a successful read of `n` bytes (the backend never writes more than the
offered buffer; a longer script value is truncated to the buffer size
exactly as the C contract caps the read length) or an error status. -/
inductive ReadStep where
  | rok (n : Nat)
  | rerr (e : SysStatus)
deriving DecidableEq, Repr

/-- Outcome of FrameReader::read_full_frame: normal return, error
return, panic, or `blocked` when the script is exhausted while more
data is demanded (the real call would block on the device). -/
inductive FullFrameResult where
  | fok
  | ferr (e : SysStatus)
  | panicked
  | blocked
deriving DecidableEq, Repr

/-- Known-line-count loop of read_full_frame: reads into the reserved
`remaining`-byte window until it is full; an Eof error while bytes are
still missing panics (too early eof), any other error is returned. -/
def fillKnown : List ReadStep → Nat → FullFrameResult
  | _, 0 => .fok
  | [], _ + 1 => .blocked
  | .rerr e :: _, _ + 1 => if e = .Eof then .panicked else .ferr e
  | .rok n :: rest, r + 1 => fillKnown rest (r + 1 - min n (r + 1))

/-- Adaptive loop of read_full_frame for unknown line count: reserve
`bytes_per_line * try_lines`, read, commit the read length, halve
try_lines when less than half the reservation was delivered and
increment it otherwise; Eof terminates normally, other errors abort
with the bytes committed so far kept. -/
def fillAdaptive : List ReadStep → Nat → Nat → Nat → FullFrameResult × Nat
  | [], _, _, acc => (.blocked, acc)
  | .rerr e :: _, _, _, acc => if e = .Eof then (.fok, acc) else (.ferr e, acc)
  | .rok n :: rest, bpl, tl, acc =>
    fillAdaptive rest bpl (if n < bpl * tl / 2 then tl / 2 else tl + 1) (acc + n)

/-- Observable outcome of FrameReader::read_full_frame: the result, the
number of bytes appended to the destination vector (committed by
set_len), and the done and started flags after the call. -/
structure FullFrameOut where
  result : FullFrameResult
  appended : Nat
  done : Bool
  started : Bool
deriving DecidableEq, Repr

/-- FrameReader::read_full_frame: asserts that no partial read happened
(started = false, otherwise panic), sets started, sets done when
last_frame before any read, then fills either the exact
`bytes_per_line * lines` window (a wrapping u32 product, committed in
one final set_len only on success) or grows adaptively (each successful
read committed immediately). -/
def readFullFrame (started done : Bool) (p : FrameParameters)
    (steps : List ReadStep) : FullFrameOut :=
  if started then { result := .panicked, appended := 0, done := done, started := started }
  else
    let done1 := done || p.last_frame
    match p.lines with
    | some n =>
      let toRead := p.bytes_per_line * n % 2 ^ 32
      let r := fillKnown steps toRead
      { result := r, appended := if r = .fok then toRead else 0,
        done := done1, started := true }
    | none =>
      let ra := fillAdaptive steps p.bytes_per_line 32 0
      { result := ra.1, appended := ra.2, done := done1, started := true }

/-- C3: the claim states that a read failing with Cancelled sets the
parent done flag for any value of last_frame.  In the source the guard
of `matches!(status, Cancelled | Eof if last_frame)` applies to both
alternatives, so a Cancelled failure on a frame with last_frame = false
leaves done unchanged (false), refuting the claim at this input. -/
theorem c3_cancelled_without_last_frame_keeps_done :
    (readFrame false false (.error .Cancelled)).done = false := by decide

/-- C3 (amended): read_frame always sets started; it sets done exactly
when the result is an error with status Cancelled or Eof and the frame
has last_frame = true (the guard applies to Cancelled as well), and
leaves done unchanged in every other case. -/
theorem c3_read_frame_done_characterisation (done lastFrame : Bool)
    (res : Except SysStatus Nat) :
    (readFrame done lastFrame res).started = true ∧
    (readFrame done lastFrame res).res = res ∧
    ((readFrame done lastFrame res).done = true ↔
      (done = true ∨ (lastFrame = true ∧
        (res = .error .Cancelled ∨ res = .error .Eof)))) := by
  refine ⟨rfl, rfl, ?_⟩
  cases res with
  | error e =>
    cases done <;> cases lastFrame <;> cases e <;> simp [readFrame]
  | ok n =>
    cases done <;> cases lastFrame <;> simp [readFrame]

/-- C5: next_frame returns Ok(None) when done is already set, for every
backend (no underlying call can influence the result); a start failure
is returned with done still false; a set_io_mode failure with a status
other than Unsupported is returned; a set_io_mode failure with status
Unsupported is ignored (the call behaves as if set_io_mode had
succeeded). -/
theorem c5_next_frame_contract :
    (∀ b : NextFrameBackend, nextFrame true b = (.ok none, true)) ∧
    (∀ (b : NextFrameBackend) (e : SysStatus), b.start = .error e →
      nextFrame false b = (.error e, false)) ∧
    (∀ (b : NextFrameBackend) (e : SysStatus), b.start = .ok () →
      b.setIoMode = .error e → e ≠ .Unsupported →
      nextFrame false b = (.error e, false)) ∧
    (∀ b : NextFrameBackend, b.start = .ok () →
      nextFrame false { b with setIoMode := .error .Unsupported } =
      nextFrame false { b with setIoMode := .ok () }) := by
  refine ⟨fun b => rfl, fun b e h => ?_, fun b e hs hio hne => ?_, fun b hs => ?_⟩
  · simp [nextFrame, h]
  · simp [nextFrame, hs, hio, hne]
  · simp [nextFrame, hs]

/-- Witness for C5 at a concrete backend whose start call fails with
IoError: next_frame returns that error and leaves done false. -/
theorem c5_next_frame_contract_witness :
    nextFrame false
      { start := .error .IoError, setIoMode := .ok (),
        getParameters := .error .Unknown } = (.error .IoError, false) :=
  c5_next_frame_contract.2.1
    { start := .error .IoError, setIoMode := .ok (),
      getParameters := .error .Unknown } .IoError rfl

lemma fillKnown_no_eof_error (steps : List ReadStep) (r : Nat) :
    ∀ e, fillKnown steps r = .ferr e → e ≠ .Eof := by
  induction steps generalizing r with
  | nil => intro e h; cases r <;> simp [fillKnown] at h
  | cons s rest ih =>
    intro e h
    cases r with
    | zero => simp [fillKnown] at h
    | succ r =>
      cases s with
      | rok n => exact ih _ e h
      | rerr e2 =>
        unfold fillKnown at h
        split at h
        · cases h
        · injection h with h1; subst h1; assumption

/-- C6 (amended): a read_full_frame call with started = false and a
known line count that returns Ok appends exactly the 32-bit product
`bytes_per_line * lines` (mod 2^32) of bytes, and Eof is never returned
as an error from this path: an Eof delivered while bytes are missing
panics (too early eof) instead. -/
theorem c6_read_full_frame_known_lines (done : Bool) (p : FrameParameters)
    (n : Nat) (steps : List ReadStep) (hl : p.lines = some n) :
    ((readFullFrame false done p steps).result = .fok →
      (readFullFrame false done p steps).appended = p.bytes_per_line * n % 2 ^ 32) ∧
    (∀ e, (readFullFrame false done p steps).result = .ferr e → e ≠ .Eof) ∧
    (∀ rest : List ReadStep, ∀ r : Nat, 0 < r →
      fillKnown (.rerr .Eof :: rest) r = .panicked) := by
  have hre : readFullFrame false done p steps =
      { result := fillKnown steps (p.bytes_per_line * n % 2 ^ 32),
        appended :=
          if fillKnown steps (p.bytes_per_line * n % 2 ^ 32) = .fok then
            p.bytes_per_line * n % 2 ^ 32
          else 0,
        done := done || p.last_frame, started := true } := by
    simp [readFullFrame, hl]
  refine ⟨?_, ?_, ?_⟩
  · intro hok
    rw [hre] at hok ⊢
    dsimp only at hok ⊢
    rw [if_pos hok]
  · intro e he
    rw [hre] at he
    dsimp only at he
    exact fillKnown_no_eof_error _ _ e he
  · intro rest r hr
    cases r with
    | zero => exact absurd hr (by simp)
    | succ r => simp [fillKnown]

/-- Witness for C6 at a concrete frame (bytes_per_line = 2, lines = 3)
and a backend delivering 6 bytes in one read. -/
theorem c6_read_full_frame_known_lines_witness :
    ((readFullFrame false false
        { format := .gray, last_frame := false, bytes_per_line := 2,
          pixels_per_line := 2, lines := some 3, depth := 8 } [.rok 6]).result = .fok →
      (readFullFrame false false
        { format := .gray, last_frame := false, bytes_per_line := 2,
          pixels_per_line := 2, lines := some 3, depth := 8 } [.rok 6]).appended
        = 2 * 3 % 2 ^ 32) ∧
    (∀ e, (readFullFrame false false
        { format := .gray, last_frame := false, bytes_per_line := 2,
          pixels_per_line := 2, lines := some 3, depth := 8 } [.rok 6]).result = .ferr e →
      e ≠ .Eof) ∧
    (∀ rest : List ReadStep, ∀ r : Nat, 0 < r →
      fillKnown (.rerr .Eof :: rest) r = .panicked) :=
  c6_read_full_frame_known_lines false
    { format := .gray, last_frame := false, bytes_per_line := 2,
      pixels_per_line := 2, lines := some 3, depth := 8 } 3 [.rok 6] rfl

/-- C6 (counterexample to the claim as stated): with bytes_per_line =
2^16 and lines = 2^16 the u32 product wraps to 0, so the call returns
Ok having appended 0 bytes, not bytes_per_line * lines = 2^32. -/
theorem c6_overflow_counterexample :
    (readFullFrame false false
      { format := .gray, last_frame := false, bytes_per_line := 65536,
        pixels_per_line := 0, lines := some 65536, depth := 8 } []).result = .fok ∧
    (readFullFrame false false
      { format := .gray, last_frame := false, bytes_per_line := 65536,
        pixels_per_line := 0, lines := some 65536, depth := 8 } []).appended = 0 ∧
    (65536 : Nat) * 65536 ≠ 0 := by decide

/-- C9: a read_full_frame call (no prior partial read) on a frame with
last_frame = true sets the parent done flag before any underlying read,
so done is true afterwards whatever the result (including every error
return), and a subsequent next_frame returns Ok(None) for every
backend. -/
theorem c9_last_frame_sets_done (started done : Bool) (p : FrameParameters)
    (steps : List ReadStep) (b : NextFrameBackend)
    (hl : p.last_frame = true) (hs : started = false) :
    (readFullFrame started done p steps).done = true ∧
    nextFrame true b = (.ok none, true) := by
  subst hs
  refine ⟨?_, rfl⟩
  unfold readFullFrame
  simp only [Bool.false_eq_true, if_false, hl, Bool.or_true]
  cases p.lines <;> rfl

/-- Witness for C9 at a concrete frame whose read fails with IoError
after one partial delivery. -/
theorem c9_last_frame_sets_done_witness :
    (readFullFrame false false
      { format := .gray, last_frame := true, bytes_per_line := 4,
        pixels_per_line := 4, lines := some 2, depth := 8 }
      [.rok 3, .rerr .IoError]).done = true ∧
    nextFrame true
      { start := .ok (), setIoMode := .ok (),
        getParameters := .error .Unknown } = (.ok none, true) :=
  c9_last_frame_sets_done false false
    { format := .gray, last_frame := true, bytes_per_line := 4,
      pixels_per_line := 4, lines := some 2, depth := 8 }
    [.rok 3, .rerr .IoError]
    { start := .ok (), setIoMode := .ok (), getParameters := .error .Unknown }
    rfl rfl

/-- Modelled from the spec: SANE_FIXED_SCALE_SHIFT is defined in the
generated C binding (not under src); the spec fixes it to 16 (Q15.16). -/
def FIXED_SCALE_SHIFT : Nat := 16

/-- Smallest i32 value. -/
def i32Min : Int := -(2 ^ 31)

/-- Largest i32 value. -/
def i32Max : Int := 2 ^ 31 - 1

/-- Truncation toward zero of a rational number. -/
def ratTrunc (q : ℚ) : Int := if 0 ≤ q then ⌊q⌋ else ⌈q⌉

/-- Rust `as` cast from f64 to i32 on the exact value: truncation
toward zero, saturating at the i32 bounds. -/
def f64AsI32 (q : ℚ) : Int := max i32Min (min i32Max (ratTrunc q))

/-- sys::fix of libsane-sys: `(v * (1 << FIXED_SCALE_SHIFT) as f64) as Fixed`
(Fixed::new wraps this function unchanged).  Multiplying a finite double
by 2^16 only shifts its exponent, hence is exact whenever the result is
in range, so the conversion is modelled on exact rationals. -/
def fix (q : ℚ) : Int := f64AsI32 (q * 2 ^ FIXED_SCALE_SHIFT)

/-- sys::unfix: `v as f64 / (1 << FIXED_SCALE_SHIFT) as f64`; every i32
is exactly representable as f64 and the division by 2^16 is exact. -/
def unfix (b : Int) : ℚ := (b : ℚ) / 2 ^ FIXED_SCALE_SHIFT

/-- C8 (counterexample to the claim as stated): the claim says fix
rounds to the nearest integer.  At x = 3/2^18 (exactly representable as
f64) the scaled value is 3/4; the cast truncates it to 0 while rounding
to nearest gives 1, so fix is not round-to-nearest. -/
theorem c8_fix_not_round_counterexample :
    fix (3 / 262144) = 0 ∧ round ((3 / 262144 : ℚ) * 2 ^ FIXED_SCALE_SHIFT) = 1 := by
  constructor
  · norm_num [fix, f64AsI32, ratTrunc, FIXED_SCALE_SHIFT, i32Min, i32Max]
  · norm_num [FIXED_SCALE_SHIFT, round_eq]

/-- C8 (amended): for every value whose scaled image fits the 32-bit
fixed word, fix truncates toward zero, fix(x) = trunc(x * 2^shift)
(the saturating clamp of the cast is the identity there), and
unfix(b) = b / 2^shift exactly for every fixed word; Fixed::new
therefore truncates rather than rounds. -/
theorem c8_fix_truncates (q : ℚ)
    (h1 : (i32Min : ℚ) ≤ q * 2 ^ FIXED_SCALE_SHIFT)
    (h2 : q * 2 ^ FIXED_SCALE_SHIFT ≤ (i32Max : ℚ)) :
    fix q = ratTrunc (q * 2 ^ FIXED_SCALE_SHIFT) ∧
    ∀ b : Int, unfix b = (b : ℚ) / 2 ^ FIXED_SCALE_SHIFT := by
  constructor
  · set y := q * 2 ^ FIXED_SCALE_SHIFT with hy
    have hhigh : ratTrunc y ≤ i32Max := by
      unfold ratTrunc
      split
      · calc ⌊y⌋ ≤ ⌊(i32Max : ℚ)⌋ := Int.floor_mono h2
          _ = i32Max := Int.floor_intCast i32Max
      · calc ⌈y⌉ ≤ ⌈(i32Max : ℚ)⌉ := Int.ceil_mono h2
          _ = i32Max := Int.ceil_intCast i32Max
    have hlow : i32Min ≤ ratTrunc y := by
      unfold ratTrunc
      split
      · calc i32Min = ⌊(i32Min : ℚ)⌋ := (Int.floor_intCast i32Min).symm
          _ ≤ ⌊y⌋ := Int.floor_mono h1
      · calc i32Min = ⌈(i32Min : ℚ)⌉ := (Int.ceil_intCast i32Min).symm
          _ ≤ ⌈y⌉ := Int.ceil_mono h1
    unfold fix f64AsI32
    rw [← hy, min_eq_right hhigh, max_eq_right hlow]
  · intro b; rfl

/-- Witness for C8 at x = 3/2^18: the scaled value 3/4 is within the
i32 range and the conversion equals the truncation there. -/
theorem c8_fix_truncates_witness :
    fix (3 / 262144) = ratTrunc ((3 / 262144 : ℚ) * 2 ^ FIXED_SCALE_SHIFT) ∧
    ∀ b : Int, unfix b = (b : ℚ) / 2 ^ FIXED_SCALE_SHIFT :=
  c8_fix_truncates (3 / 262144)
    (by norm_num [i32Min, FIXED_SCALE_SHIFT])
    (by norm_num [i32Max, FIXED_SCALE_SHIFT])

lemma getD_append_length_add (a b : List Nat) (k : Nat) :
    (a ++ b).getD (a.length + k) 0 = b.getD k 0 := by
  induction a with
  | nil => simp
  | cons x a ih =>
    have hidx : (x :: a).length + k = (a.length + k) + 1 := by
      simp [List.length_cons]; omega
    rw [List.cons_append, hidx, List.getD_cons_succ, ih]

lemma getD_take_lt (l : List Nat) (n k : Nat) (hk : k < n) (hn : n ≤ l.length) :
    (l.take n).getD k 0 = l.getD k 0 := by
  induction l generalizing n k with
  | nil => simp at hn; omega
  | cons x l ih =>
    cases n with
    | zero => omega
    | succ n =>
      cases k with
      | zero => rfl
      | succ k =>
        simp only [List.take_succ_cons, List.getD_cons_succ]
        exact ih n k (by omega) (by simpa using hn)

lemma flatMap_expandByte_length (l : List Nat) :
    (l.flatMap expandByte).length = 8 * l.length := by
  induction l with
  | nil => rfl
  | cons a tl ih =>
    simp only [List.flatMap_cons, List.length_append, ih, List.length_cons]
    have : (expandByte a).length = 8 := rfl
    rw [this]
    omega

lemma flatMap_expandByte_getD (l : List Nat) (k : Nat) (hk : k < 8 * l.length) :
    (l.flatMap expandByte).getD k 0 =
      if (l.getD (k / 8) 0) &&& (128 >>> (k % 8)) ≠ 0 then 0 else 1 := by
  induction l generalizing k with
  | nil => simp at hk
  | cons a tl ih =>
    by_cases h8 : k < 8
    · interval_cases k <;> rfl
    · have hlen : (expandByte a).length = 8 := rfl
      obtain ⟨m, rfl⟩ : ∃ m, k = 8 + m := ⟨k - 8, by omega⟩
      have e1 : ((a :: tl).flatMap expandByte).getD (8 + m) 0 =
          (tl.flatMap expandByte).getD m 0 := by
        rw [List.flatMap_cons,
          show (8 : Nat) + m = (expandByte a).length + m from by rw [hlen],
          getD_append_length_add]
      rw [e1]
      have h1 : (8 + m) / 8 = m / 8 + 1 := by omega
      have h2 : (8 + m) % 8 = m % 8 := by omega
      rw [h1, h2, List.getD_cons_succ]
      refine ih m ?_
      simp only [List.length_cons] at hk
      omega

lemma takeRows_length (frame : List Nat) (bpl keep h : Nat) (hkeep : keep ≤ bpl)
    (hlen : bpl * h ≤ frame.length) :
    (takeRows frame bpl keep h).length = keep * h := by
  induction h generalizing frame with
  | zero => simp [takeRows]
  | succ h ih =>
    rw [Nat.mul_succ] at hlen
    have hf : keep ≤ frame.length := by
      have : bpl ≤ frame.length := by
        have := Nat.le_add_left bpl (bpl * h)
        omega
      omega
    simp only [takeRows, List.length_append, List.length_take]
    rw [ih (frame.drop bpl) (by simp; omega)]
    rw [Nat.mul_succ]
    omega

lemma takeRows_getD (frame : List Nat) (bpl keep h r j : Nat) (hkeep : keep ≤ bpl)
    (hlen : bpl * h ≤ frame.length) (hr : r < h) (hj : j < keep) :
    (takeRows frame bpl keep h).getD (r * keep + j) 0 = frame.getD (r * bpl + j) 0 := by
  induction h generalizing frame r with
  | zero => omega
  | succ h ih =>
    rw [Nat.mul_succ] at hlen
    have hf : keep ≤ frame.length := by
      have : bpl ≤ frame.length := by omega
      omega
    cases r with
    | zero =>
      simp only [takeRows, Nat.zero_mul, Nat.zero_add]
      have hjlen : j < (frame.take keep).length := by
        simp [List.length_take]; omega
      rw [List.getD_eq_getElem?_getD, List.getElem?_append, if_pos hjlen,
        ← List.getD_eq_getElem?_getD]
      exact getD_take_lt frame keep j hj hf
    | succ r =>
      simp only [takeRows]
      have hidx : (r + 1) * keep + j = (frame.take keep).length + (r * keep + j) := by
        simp [List.length_take]
        rw [Nat.min_eq_left hf]
        ring
      rw [hidx, getD_append_length_add]
      rw [ih (frame.drop bpl) r (by simp; omega) (by omega)]
      have : (frame.drop bpl).getD (r * bpl + j) 0 = frame.getD (bpl + (r * bpl + j)) 0 := by
        rw [List.getD_eq_getElem?_getD, List.getElem?_drop, ← List.getD_eq_getElem?_getD]
      rw [this]
      congr 1
      ring

/-- C4 (counterexample to the claim as stated): the claim says the
expanded black-and-white output byte is 1 when the input bit is set.
Decoding the single byte 0b10000000 (first bit set) with expansion
enabled yields 0 for the first pixel and 1 for the clear bits — the
opposite of the claimed mapping. -/
theorem c4_set_bit_yields_zero_counterexample :
    write { FrameDecoder.new with black_and_white_as_bytes := true } [128]
      { format := .gray, last_frame := false, bytes_per_line := 1,
        pixels_per_line := 8, lines := some 1, depth := 1 }
      = .ok { buffer := [0, 1, 1, 1, 1, 1, 1, 1], spare := [],
              state := .Done .BlackAndWhite, width := 8, height := 1,
              black_and_white_as_bytes := true } ∧
    ([0, 1, 1, 1, 1, 1, 1, 1] : List Nat) ≠ [1, 0, 0, 0, 0, 0, 0, 0] := by decide

/-- C4 (amended): for a depth-1 Gray frame decoded with expansion
enabled (on a fresh decoder, with valid geometry: nonzero stride that
divides the frame length, a matching line count, pixels_per_line a
multiple of 8 whose byte prefix fits the stride), the decoder emits
exactly one output byte per pixel in big-endian bit order, with value
0 when the corresponding input bit is set and 1 when it is clear. -/
theorem c4_expanded_baw_bytes (d : FrameDecoder) (frame : List Nat) (p : FrameParameters)
    (hstate : d.state = .Initial) (hbaw : d.black_and_white_as_bytes = true)
    (hfmt : p.format = .gray) (hdepth : p.depth = 1)
    (hlen32 : frame.length < 2 ^ 32)
    (hbpl : 0 < p.bytes_per_line)
    (hdvd : frame.length % p.bytes_per_line = 0)
    (hlines : p.lines = none ∨ p.lines = some (frame.length / p.bytes_per_line))
    (hppl8 : p.pixels_per_line % 8 = 0)
    (hfit : p.pixels_per_line / 8 ≤ p.bytes_per_line) :
    ∃ d', write d frame p = .ok d' ∧
      d'.buffer.length = d.buffer.length
        + p.pixels_per_line * (frame.length / p.bytes_per_line) ∧
      ∀ r c, r < frame.length / p.bytes_per_line → c < p.pixels_per_line →
        d'.buffer.getD (d.buffer.length + (r * p.pixels_per_line + c)) 0 =
          if frame.getD (r * p.bytes_per_line + c / 8) 0 &&& (128 >>> (c % 8)) ≠ 0
          then 0 else 1 := by
  have hdone : d.state.isDone = false := by rw [hstate]; rfl
  set bpl := p.bytes_per_line with hbpldef
  set ppl := p.pixels_per_line with hppldef
  set h := frame.length / bpl with hhdef
  set keep := ppl / 8 with hkeepdef
  set out := (takeRows frame bpl keep h).flatMap expandByte with houtdef
  have hcap : bpl * h = frame.length := Nat.mul_div_cancel' (Nat.dvd_of_mod_eq_zero hdvd)
  have h8k : 8 * keep = ppl := Nat.mul_div_cancel' (Nat.dvd_of_mod_eq_zero hppl8)
  have hwrite : write d frame p = .ok { d with
      buffer := d.buffer ++ out,
      width := ppl,
      height := h,
      state := .Done .BlackAndWhite } := by
    have hlen32n : ¬(4294967296 ≤ frame.length) := by omega
    unfold write writeDispatch writeBaw
    rcases hlines with hl | hl <;>
      simp [hdone, hstate, hfmt, hdepth, hl, hppl8, hbaw, hdvd, hlen32n,
        FrameDecoderState.isDone, Nat.pos_iff_ne_zero.mp hbpl, Nat.not_lt.mpr hfit]
  have hlenout : out.length = ppl * h := by
    rw [houtdef, flatMap_expandByte_length,
      takeRows_length frame bpl keep h hfit (le_of_eq hcap), ← mul_assoc, h8k]
  refine ⟨_, hwrite, ?_, ?_⟩
  · simp only [List.length_append, hlenout]
  · intro r c hr hc
    simp only [List.length_append]
    rw [getD_append_length_add]
    have hkbound : r * ppl + c < 8 * (takeRows frame bpl keep h).length := by
      rw [takeRows_length frame bpl keep h hfit (le_of_eq hcap)]
      have hb1 : r * ppl + c < (r + 1) * ppl := by
        rw [Nat.succ_mul]
        omega
      have hb2 : (r + 1) * ppl ≤ h * ppl := Nat.mul_le_mul_right _ hr
      have hb3 : h * ppl = 8 * (keep * h) := by rw [← h8k]; ring
      omega
    rw [flatMap_expandByte_getD _ _ hkbound]
    have hidx : r * ppl + c = c + r * keep * 8 := by rw [← h8k]; ring
    rw [hidx, Nat.add_mul_div_right _ _ (by norm_num : 0 < (8:Nat)),
      Nat.add_mul_mod_self_right, Nat.add_comm (c / 8) (r * keep)]
    have hcdiv : c / 8 < keep := by omega
    rw [takeRows_getD frame bpl keep h r (c / 8) hfit (le_of_eq hcap) hr hcdiv]

/-- Witness for C4 at the frame [0b10000000] with pixels_per_line = 8,
bytes_per_line = 1, one line, depth 1, expansion enabled. -/
theorem c4_expanded_baw_bytes_witness :
    ∃ d', write { FrameDecoder.new with black_and_white_as_bytes := true } [128]
      { format := .gray, last_frame := false, bytes_per_line := 1,
        pixels_per_line := 8, lines := some 1, depth := 1 } = .ok d' ∧
      d'.buffer.length = ({ FrameDecoder.new with
          black_and_white_as_bytes := true } : FrameDecoder).buffer.length + 8 * (1 / 1) ∧
      ∀ r c, r < (1 : Nat) / 1 → c < 8 →
        d'.buffer.getD (({ FrameDecoder.new with
            black_and_white_as_bytes := true } : FrameDecoder).buffer.length + (r * 8 + c)) 0 =
          if ([128] : List Nat).getD (r * 1 + c / 8) 0 &&& (128 >>> (c % 8)) ≠ 0
          then 0 else 1 :=
  c4_expanded_baw_bytes { FrameDecoder.new with black_and_white_as_bytes := true } [128]
    { format := .gray, last_frame := false, bytes_per_line := 1,
      pixels_per_line := 8, lines := some 1, depth := 1 }
    rfl rfl rfl rfl (by decide) (by decide) (by decide) (Or.inr rfl)
    (by decide) (by decide)

end LibSane
